import Mathlib

/-
  Verification development for the waveform playback/streaming engine of the
  GUI_VibraForge repository (class WaveformPlaybackThread in
  src/Main_GUI/waveform_designer/event_designer/main.py).

  The embedding models Python floats observed by the playback code by exact
  rationals extended with the non-finite values NaN and ±inf, machine ints by
  Int/Nat, and the fallible external collaborators (the serial channel's
  send_command, the pacing sleep, the log signal) by explicit oracles that say
  which calls raise.
-/

unseal Rat.add Rat.sub Rat.mul Rat.inv

namespace VibraForge

/-- A Python float value as seen by the playback code: a finite value (modelled
exactly by a rational) or one of the non-finite values NaN, +inf, -inf. -/
inductive PyFloat where
  | nan : PyFloat
  | posinf : PyFloat
  | neginf : PyFloat
  | finite : ℚ → PyFloat
deriving DecidableEq

/-- np.nan_to_num with nan=0.0, posinf=0.0, neginf=0.0 (main.py line 90). -/
def nanToNum : PyFloat → ℚ
  | .nan => 0
  | .posinf => 0
  | .neginf => 0
  | .finite q => q

/-- np.min on a nonempty array, as a fold; the 0 for the empty list is never
used by the translated code (guarded by the emptiness check). -/
def qmin : List ℚ → ℚ
  | [] => 0
  | x :: xs => xs.foldl min x

/-- np.max on a nonempty array, as a fold. -/
def qmax : List ℚ → ℚ
  | [] => 0
  | x :: xs => xs.foldl max x

/-- np.clip(v, 0.0, 1.0) (main.py line 96). -/
def clamp01 (q : ℚ) : ℚ := max 0 (min 1 q)

/-- Core of WaveformPlaybackThread._to_unit_nonneg (main.py lines 91-96),
after the nan_to_num step: emptiness check, degenerate-signal branch with
threshold 1e-12, otherwise affine rescale clamped to [0,1]. -/
def toUnitCore (y : List ℚ) : List ℚ :=
  if y = [] then y
  else if |qmax y - qmin y| < 1 / 1000000000000 then
    if qmax y ≤ 0 then List.replicate y.length 0 else List.replicate y.length 1
  else
    y.map (fun v => clamp01 ((v - qmin y) / (qmax y - qmin y)))

/-- WaveformPlaybackThread._to_unit_nonneg (main.py lines 87-96): replace
NaN/±inf by 0, then normalize to the unit range. -/
def toUnitNonneg (y : List PyFloat) : List ℚ :=
  toUnitCore (y.map nanToNum)

/-- Round half to even on rationals: the behaviour of both Python's round()
and np.rint on the values the playback code feeds them. -/
def rintEven (q : ℚ) : ℤ :=
  if q - ⌊q⌋ < 1 / 2 then ⌊q⌋
  else if 1 / 2 < q - ⌊q⌋ then ⌊q⌋ + 1
  else if ⌊q⌋ % 2 = 0 then ⌊q⌋ else ⌊q⌋ + 1

/-- The decimation step of the run loop (main.py line 105):
step = max(1, int(round(float(sr) * (tick_ms / 1000.0)))). -/
def stepOf (sr : ℚ) (tickMs : ℤ) : ℕ :=
  (max 1 (rintEven (sr * ((tickMs : ℚ) / 1000)))).toNat

/-- NumPy slicing y[::s] for a positive step s: the elements at indices
0, s, 2s, ... (main.py line 106). -/
def everyNth (s : ℕ) (l : List ℚ) : List ℚ :=
  (List.range ((l.length + s - 1) / s)).map (fun i => l.getD (i * s) 0)

/-- The per-sample duty computation of the run loop (main.py lines 108-110):
rint(v*15) as an int, floor-corrected to 1 when v > 1e-6 rounds to 0,
then clipped to [0, 15]. -/
def quantizeVal (v : ℚ) : ℤ :=
  min 15 (max 0 (if 1 / 1000000 < v ∧ rintEven (v * 15) = 0 then 1
                 else rintEven (v * 15)))

/-- The waveform source object as probed by WaveformPlaybackThread._extract_y
(main.py lines 54-85).  `hasWd` is whether `event.waveform_data` is non-None;
`gm` models the optional `get_modified_waveform` callable (`none`: attribute
absent or not callable; `some none`: the call raises; `some (some l)`: the call
returns `l`); `ampArr` models `wd.get_amplitude_array()` (`none`: missing or
raises; `some l`: returns `l`); `points` is `wd.amplitude` as (time, amplitude)
records, with None folded to []; `sampleRate` and `duration` are the declared
`wd.sample_rate` and `wd.duration` attributes (the getattr defaults folded in).
Arrays are restricted to finite float values, modelled by exact rationals. -/
structure WfSource where
  hasWd : Bool
  gm : Option (Option (List ℚ))
  ampArr : Option (List ℚ)
  points : List (ℚ × ℚ)
  sampleRate : ℚ
  duration : ℚ
deriving DecidableEq

/-- np.diff on a time array: the consecutive differences t[i+1] - t[i]. -/
def diffs (t : List ℚ) : List ℚ :=
  List.zipWith (fun a b => a - b) t.tail t

/-- np.allclose(ds, d0) with the default tolerances rtol=1e-5, atol=1e-8:
every element within 1e-8 + 1e-5 * |d0| of d0 (main.py line 79). -/
def allcloseTo (ds : List ℚ) (d0 : ℚ) : Bool :=
  ds.all (fun d => decide (|d - d0| ≤ 1 / 100000000 + (1 / 100000) * |d0|))

/-- np.linspace(a, b, n): n evenly spaced points from a to b inclusive
(main.py line 81); the translated code always calls it with n ≥ 2. -/
def linspace (a b : ℚ) (n : ℕ) : List ℚ :=
  if n = 1 then [a]
  else (List.range n).map (fun i => a + (b - a) * i / ((n : ℚ) - 1))

/-- Inner scan of np.interp: walk the remaining (time, value) breakpoints with
the previous breakpoint (t0, y0) at hand; past the last breakpoint the last
value is held. -/
def interpGo (x : ℚ) : ℚ → ℚ → List (ℚ × ℚ) → ℚ
  | _, y0, [] => y0
  | t0, y0, (t1, y1) :: rest =>
      if x ≤ t1 then y0 + (y1 - y0) * (x - t0) / (t1 - t0)
      else interpGo x t1 y1 rest

/-- np.interp(x, t, y) for the increasing breakpoint list `pts = zip t y`
(main.py line 82): clamp below the first point, linear inside, clamp above. -/
def interp1 (pts : List (ℚ × ℚ)) (x : ℚ) : ℚ :=
  match pts with
  | [] => 0
  | (t0, y0) :: rest => if x ≤ t0 then y0 else interpGo x t0 y0 rest

/-- Strategy 3 of _extract_y (main.py lines 72-85): rebuild the signal from the
raw points; when there is more than one point and the time deltas are not all
allclose to the first delta, resample onto a uniform grid of
max(2, round(duration * sample_rate)) points spanning [0, duration] by linear
interpolation; fall through to the empty-array fallback when there are no
points. -/
def extractStage3 (s : WfSource) : List ℚ × ℚ :=
  if s.points = [] then ([], s.sampleRate)
  else
    let t := s.points.map Prod.fst
    if 1 < t.length ∧ ¬ (allcloseTo (diffs t) (diffs t).headI = true) then
      let n := (max 2 (rintEven (s.duration * s.sampleRate))).toNat
      ((linspace 0 s.duration n).map (interp1 s.points), s.sampleRate)
    else (s.points.map Prod.snd, s.sampleRate)

/-- Strategy 2 of _extract_y (main.py lines 66-71): the direct amplitude-array
accessor; a raised exception or an empty result falls through to strategy 3. -/
def extractStage2 (s : WfSource) : List ℚ × ℚ :=
  match s.ampArr with
  | some y => if y.length ≠ 0 then (y, s.sampleRate) else extractStage3 s
  | none => extractStage3 s

/-- WaveformPlaybackThread._extract_y (main.py lines 54-85): None waveform_data
gives ([], 0.0); otherwise try the modified-waveform accessor, then the direct
amplitude array, then reconstruction from raw points, each raised exception or
empty result falling through to the next strategy. -/
def extractY (s : WfSource) : List ℚ × ℚ :=
  if s.hasWd = false then ([], 0)
  else
    match s.gm with
    | some (some y) => if y.length ≠ 0 then (y, s.sampleRate) else extractStage2 s
    | _ => extractStage2 s

/-- One hardware command as handed to api.send_command(addr, duty, freq,
enabled) (main.py lines 115 and 120). -/
structure Command where
  addr : ℤ
  duty : ℤ
  freq : ℤ
  en : ℤ
deriving DecidableEq

/-- Behaviour oracle for the external collaborators of one run: which
streaming send_command calls raise (by tick index and actuator position),
which shutdown off-commands raise (by actuator position), and whether an
unexpected exception is raised inside the streaming loop right after the
commands of some tick (e.g. by the pacing sleep or the log signal emission),
with the text of that exception. -/
structure DeviceEnv where
  streamFail : ℕ → ℕ → Bool
  shutFail : ℕ → Bool
  crashAt : Option ℕ
  crashMsg : String

/-- Observable outcome of one WaveformPlaybackThread.run: the send_command
calls attempted in order, the (tick, actuator position) pairs whose failures
were reported on the log signal, and the (success, message) payload of the
single finished signal emission. -/
structure RunResult where
  commands : List Command
  logs : List (ℕ × ℕ)
  success : Bool
  message : String
deriving DecidableEq

/-- The `if self._stop: break` poll at the head of tick `i` (main.py line
113).  The cooperative stop flag is set once and never cleared, so it is
modelled by the first tick index `c` whose poll observes it (none: never). -/
def pollStop (cancel : Option ℕ) (i : ℕ) : Bool :=
  match cancel with
  | none => false
  | some c => decide (c ≤ i)

/-- The streaming loop of run (main.py lines 112-117), from tick index `i` on:
poll the stop flag, emit one send_command per actuator of the tick's duty
(failures logged, not propagated), then sleep; an unexpected exception during
the external calls after the commands of tick `i` (oracle `ca`) aborts the
loop with the crashed flag set.  Returns (commands attempted, logged failures,
crashed). -/
def streamLoop (acts : List ℤ) (freq : ℤ) (cancel : Option ℕ) (sf : ℕ → ℕ → Bool)
    (ca : Option ℕ) : List ℤ → ℕ → List Command × List (ℕ × ℕ) × Bool
  | [], _ => ([], [], false)
  | d :: rest, i =>
      if pollStop cancel i then ([], [], false)
      else
        let cmds := acts.map (fun a => Command.mk a d freq 1)
        let lgs := (List.range acts.length).filterMap
          (fun j => if sf i j then some (i, j) else none)
        if ca = some i then (cmds, lgs, true)
        else
          let r := streamLoop acts freq cancel sf ca rest (i + 1)
          (cmds ++ r.1, lgs ++ r.2.1, r.2.2)

/-- The tick indices whose command-emission body ran, mirroring the control
flow of the streaming loop (main.py lines 112-117) exactly: a tick whose
head-of-loop poll observes the stop flag never runs; an unexpected exception
during the trailing external calls of tick `i` still counts tick `i` as run
(its commands and its per-command log emissions already happened) but ends
the loop there. -/
def ranTicks (cancel : Option ℕ) (ca : Option ℕ) : List ℤ → ℕ → List ℕ
  | [], _ => []
  | _ :: rest, i =>
      if pollStop cancel i then []
      else if ca = some i then [i]
      else i :: ranTicks cancel ca rest (i + 1)

/-- The shutdown loop on the normal exit path (main.py lines 119-121): one
off-command per actuator, each wrapped in its own try/except, so every
actuator is attempted no matter which calls raise. -/
def shutdownNormal (acts : List ℤ) : List Command :=
  acts.map (fun a => Command.mk a 0 0 0)

/-- The shutdown loop of the exception handler (main.py lines 125-127), from
actuator position `j` on: the single try wraps the whole for loop, so the
first raising off-command (oracle `shf`) ends the loop after that attempt. -/
def shutdownExceptGo (shf : ℕ → Bool) : List ℤ → ℕ → List Command
  | [], _ => []
  | a :: rest, j =>
      if shf j then [Command.mk a 0 0 0]
      else Command.mk a 0 0 0 :: shutdownExceptGo shf rest (j + 1)

/-- The shutdown attempted by the except branch of run (main.py lines
124-127). -/
def shutdownExcept (acts : List ℤ) (shf : ℕ → Bool) : List Command :=
  shutdownExceptGo shf acts 0

/-- The duty sequence computed by run before streaming (main.py lines
104-110): normalize the extracted signal (the extracted values are finite
floats, re-fed to _to_unit_nonneg), decimate by the tick step, quantize. -/
def dutySeqOf (s : WfSource) (tickMs : ℤ) : List ℤ :=
  (everyNth (stepOf (extractY s).2 tickMs)
      (toUnitNonneg ((extractY s).1.map PyFloat.finite))).map quantizeVal

/-- WaveformPlaybackThread.run (main.py lines 98-128): empty extraction emits
finished(False, "Empty waveform") with no commands; otherwise stream the duty
sequence, then — on the normal exit (sequence exhausted or stop flag seen) —
run the per-actuator-guarded shutdown and emit finished(True, "Waveform
done"); on an unexpected exception, run the single-try shutdown of the except
branch and emit finished(False, str(e)). -/
def runModel (s : WfSource) (acts : List ℤ) (freq : ℤ) (tickMs : ℤ)
    (cancel : Option ℕ) (env : DeviceEnv) : RunResult :=
  if (extractY s).1 = [] then
    { commands := [], logs := [], success := false, message := "Empty waveform" }
  else if (streamLoop acts freq cancel env.streamFail env.crashAt
      (dutySeqOf s tickMs) 0).2.2 then
    { commands := (streamLoop acts freq cancel env.streamFail env.crashAt
          (dutySeqOf s tickMs) 0).1 ++ shutdownExcept acts env.shutFail,
      logs := (streamLoop acts freq cancel env.streamFail env.crashAt
          (dutySeqOf s tickMs) 0).2.1,
      success := false, message := env.crashMsg }
  else
    { commands := (streamLoop acts freq cancel env.streamFail env.crashAt
          (dutySeqOf s tickMs) 0).1 ++ shutdownNormal acts,
      logs := (streamLoop acts freq cancel env.streamFail env.crashAt
          (dutySeqOf s tickMs) 0).2.1,
      success := true, message := "Waveform done" }

/-- Fixture: a source whose modified-waveform accessor returns a single
sample, at the declared rate 1000. -/
def srcOne : WfSource :=
  { hasWd := true, gm := some (some [1]), ampArr := none, points := [],
    sampleRate := 1000, duration := 1 }

/-- Fixture: a source whose modified-waveform accessor returns two samples at
the declared rate 20, so a 50 ms tick keeps both samples. -/
def srcTwo : WfSource :=
  { hasWd := true, gm := some (some [0, 1]), ampArr := none, points := [],
    sampleRate := 20, duration := 1 }

/-- Fixture: a source on which every extraction strategy comes up empty. -/
def srcEmpty : WfSource :=
  { hasWd := true, gm := some none, ampArr := none, points := [],
    sampleRate := 1000, duration := 1 }

/-- Fixture: a source offering only raw points whose time deltas are unequal
(1 versus 1 + 1e-9) but well within the np.allclose tolerance. -/
def srcNU : WfSource :=
  { hasWd := true, gm := none, ampArr := none,
    points := [(0, 0), (1, 1), (2 + 1/1000000000, 1/2)],
    sampleRate := 1000, duration := 2 }

/-- Fixture: an environment in which no external call fails. -/
def envOk : DeviceEnv :=
  { streamFail := fun _ _ => false, shutFail := fun _ => false,
    crashAt := none, crashMsg := "" }

/-- Fixture: an environment in which an unexpected exception is raised right
after the commands of tick 0, and the off-command for the first actuator
(position 0) raises. -/
def envCrash : DeviceEnv :=
  { streamFail := fun _ _ => false, shutFail := fun j => j == 0,
    crashAt := some 0, crashMsg := "boom" }

/-- Fixture: a 1-second signal of 1000 samples at 1000 Hz exposed through the
direct amplitude-array accessor. -/
def srcBig : WfSource :=
  { hasWd := true, gm := none, ampArr := some (List.replicate 1000 1),
    points := [], sampleRate := 1000, duration := 1 }

/-- Strategy 1 of the spec's extraction contract: the modified-waveform
accessor, yielding a result only when present, not raising, and non-empty. -/
def stratModified (s : WfSource) : Option (List ℚ) :=
  match s.gm with
  | some (some y) => if y.length ≠ 0 then some y else none
  | _ => none

/-- Strategy 2 of the spec's extraction contract: the direct amplitude-array
accessor, yielding a result only when it does not raise and is non-empty. -/
def stratDirect (s : WfSource) : Option (List ℚ) :=
  match s.ampArr with
  | some y => if y.length ≠ 0 then some y else none
  | none => none

/-- Strategy 3 of the spec's extraction contract, amended: reconstruction
from the raw points; with more than one point and some time delta differing
from the first delta by more than the np.allclose tolerance (1e-8 absolute
plus 1e-5 relative to the first delta), resample by linear interpolation onto
a uniform grid of max(2, round(duration * sample_rate)) points spanning
[0, duration]; otherwise use the amplitudes directly. -/
def stratPoints (s : WfSource) : Option (List ℚ) :=
  if s.points = [] then none
  else if 1 < (s.points.map Prod.fst).length
      ∧ ¬ (allcloseTo (diffs (s.points.map Prod.fst))
          (diffs (s.points.map Prod.fst)).headI = true) then
    some ((linspace 0 s.duration
        (max 2 (rintEven (s.duration * s.sampleRate))).toNat).map (interp1 s.points))
  else some (s.points.map Prod.snd)

/-- The spec-side description of extraction, amended: try the three
strategies in priority order and return the first result, falling back to the
empty array with the source's declared sample rate. -/
def extractSpecAmended (s : WfSource) : List ℚ × ℚ :=
  if s.hasWd = false then ([], 0)
  else
    match stratModified s with
    | some y => (y, s.sampleRate)
    | none =>
      match stratDirect s with
      | some y => (y, s.sampleRate)
      | none =>
        match stratPoints s with
        | some y => (y, s.sampleRate)
        | none => ([], s.sampleRate)

example : nanToNum .nan = 0 := by decide
example : toUnitNonneg [] = [] := by decide
example : rintEven (1/2) = 0 := by decide
example : rintEven (3/2) = 2 := by decide
example : rintEven (-5/2) = -2 := by decide
example : stepOf 1000 50 = 50 := by decide
example : everyNth 2 [1, 2, 3, 4, 5] = [1, 3, 5] := by decide
example : quantizeVal (1/100000) = 1 := by decide
example : extractY srcOne = ([1], 1000) := by decide
example : extractY srcEmpty = ([], 1000) := by decide
example : extractY srcNU = ([0, 1, 1/2], 1000) := by decide
example : dutySeqOf srcOne 50 = [15] := by decide
example : dutySeqOf srcTwo 50 = [0, 15] := by decide
example : runModel srcEmpty [0, 1] 4 50 none envOk =
    { commands := [], logs := [], success := false, message := "Empty waveform" } := by decide
example : runModel srcTwo [0] 4 50 (some 1) envOk =
    { commands := [⟨0, 0, 4, 1⟩, ⟨0, 0, 0, 0⟩], logs := [],
      success := true, message := "Waveform done" } := by decide
example : runModel srcOne [0, 1] 4 50 none envCrash =
    { commands := [⟨0, 15, 4, 1⟩, ⟨1, 15, 4, 1⟩, ⟨0, 0, 0, 0⟩], logs := [],
      success := false, message := "boom" } := by decide

/-! Helper lemmas about the normalizer. -/

theorem clamp01_nonneg (q : ℚ) : 0 ≤ clamp01 q := le_max_left 0 _

theorem clamp01_le_one (q : ℚ) : clamp01 q ≤ 1 :=
  max_le (by norm_num) (min_le_left 1 q)

theorem clamp01_eq_self {q : ℚ} (h0 : 0 ≤ q) (h1 : q ≤ 1) : clamp01 q = q := by
  unfold clamp01
  rw [min_eq_right h1, max_eq_right h0]

theorem clamp01_idem (q : ℚ) : clamp01 (clamp01 q) = clamp01 q :=
  clamp01_eq_self (clamp01_nonneg q) (clamp01_le_one q)

theorem foldl_min_le_init (l : List ℚ) (x : ℚ) : l.foldl min x ≤ x := by
  induction l generalizing x with
  | nil => exact le_rfl
  | cons a l ih => exact le_trans (ih (min x a)) (min_le_left x a)

theorem init_le_foldl_max (l : List ℚ) (x : ℚ) : x ≤ l.foldl max x := by
  induction l generalizing x with
  | nil => exact le_rfl
  | cons a l ih => exact le_trans (le_max_left x a) (ih (max x a))

theorem qmin_le_qmax : ∀ {y : List ℚ}, y ≠ [] → qmin y ≤ qmax y
  | [], h => absurd rfl h
  | x :: xs, _ => le_trans (foldl_min_le_init xs x) (init_le_foldl_max xs x)

theorem foldl_min_map (f : ℚ → ℚ) (hf : ∀ a b, a ≤ b → f a ≤ f b)
    (l : List ℚ) (x : ℚ) : (l.map f).foldl min (f x) = f (l.foldl min x) := by
  induction l generalizing x with
  | nil => rfl
  | cons a l ih =>
      have hmin : min (f x) (f a) = f (min x a) := by
        rcases le_total x a with h | h
        · rw [min_eq_left (hf _ _ h), min_eq_left h]
        · rw [min_eq_right (hf _ _ h), min_eq_right h]
      simp only [List.map_cons, List.foldl_cons, hmin, ih]

theorem foldl_max_map (f : ℚ → ℚ) (hf : ∀ a b, a ≤ b → f a ≤ f b)
    (l : List ℚ) (x : ℚ) : (l.map f).foldl max (f x) = f (l.foldl max x) := by
  induction l generalizing x with
  | nil => rfl
  | cons a l ih =>
      have hmax : max (f x) (f a) = f (max x a) := by
        rcases le_total x a with h | h
        · rw [max_eq_right (hf _ _ h), max_eq_right h]
        · rw [max_eq_left (hf _ _ h), max_eq_left h]
      simp only [List.map_cons, List.foldl_cons, hmax, ih]

theorem qmin_cons_map (f : ℚ → ℚ) (hf : ∀ a b, a ≤ b → f a ≤ f b)
    (x : ℚ) (xs : List ℚ) : qmin ((x :: xs).map f) = f (qmin (x :: xs)) :=
  foldl_min_map f hf xs x

theorem qmax_cons_map (f : ℚ → ℚ) (hf : ∀ a b, a ≤ b → f a ≤ f b)
    (x : ℚ) (xs : List ℚ) : qmax ((x :: xs).map f) = f (qmax (x :: xs)) :=
  foldl_max_map f hf xs x

theorem foldl_min_replicate (n : ℕ) (c : ℚ) :
    (List.replicate n c).foldl min c = c := by
  induction n with
  | zero => rfl
  | succ n ih => rw [List.replicate_succ, List.foldl_cons, min_self, ih]

theorem foldl_max_replicate (n : ℕ) (c : ℚ) :
    (List.replicate n c).foldl max c = c := by
  induction n with
  | zero => rfl
  | succ n ih => rw [List.replicate_succ, List.foldl_cons, max_self, ih]

theorem qmin_replicate (n : ℕ) (c : ℚ) :
    qmin (List.replicate (n + 1) c) = c := by
  rw [List.replicate_succ]
  exact foldl_min_replicate n c

theorem qmax_replicate (n : ℕ) (c : ℚ) :
    qmax (List.replicate (n + 1) c) = c := by
  rw [List.replicate_succ]
  exact foldl_max_replicate n c

theorem map_eq_self_of_mem {α : Type} {f : α → α} :
    ∀ {l : List α}, (∀ v ∈ l, f v = v) → l.map f = l
  | [], _ => rfl
  | a :: l, h => by
      rw [List.map_cons, h a (List.mem_cons_self a l),
        map_eq_self_of_mem (fun v hv => h v (List.mem_cons_of_mem a hv))]

theorem toUnitCore_of_deg_nonpos {y : List ℚ} (hy : y ≠ [])
    (hdeg : |qmax y - qmin y| < 1 / 1000000000000) (h0 : qmax y ≤ 0) :
    toUnitCore y = List.replicate y.length 0 := by
  unfold toUnitCore
  rw [if_neg hy, if_pos hdeg, if_pos h0]

theorem toUnitCore_of_deg_pos {y : List ℚ} (hy : y ≠ [])
    (hdeg : |qmax y - qmin y| < 1 / 1000000000000) (h0 : ¬ qmax y ≤ 0) :
    toUnitCore y = List.replicate y.length 1 := by
  unfold toUnitCore
  rw [if_neg hy, if_pos hdeg, if_neg h0]

theorem toUnitCore_of_nondeg {y : List ℚ} (hy : y ≠ [])
    (hdeg : ¬ |qmax y - qmin y| < 1 / 1000000000000) :
    toUnitCore y = y.map (fun v => clamp01 ((v - qmin y) / (qmax y - qmin y))) := by
  unfold toUnitCore
  rw [if_neg hy, if_neg hdeg]

theorem toUnitCore_length (y : List ℚ) : (toUnitCore y).length = y.length := by
  unfold toUnitCore
  split_ifs <;> simp

theorem toUnitCore_mem {y : List ℚ} {v : ℚ} (hv : v ∈ toUnitCore y) :
    0 ≤ v ∧ v ≤ 1 := by
  unfold toUnitCore at hv
  split_ifs at hv with h1 h2 h3
  · rw [h1] at hv
    exact absurd hv (List.not_mem_nil v)
  · rw [List.eq_of_mem_replicate hv]
    norm_num
  · rw [List.eq_of_mem_replicate hv]
    norm_num
  · obtain ⟨u, _, rfl⟩ := List.mem_map.mp hv
    exact ⟨clamp01_nonneg _, clamp01_le_one _⟩

theorem nanToNum_map_finite (l : List ℚ) :
    (l.map PyFloat.finite).map nanToNum = l := by
  rw [List.map_map]
  exact map_eq_self_of_mem (fun v _ => rfl)

theorem toUnitCore_idem (y : List ℚ) :
    toUnitCore (toUnitCore y) = toUnitCore y := by
  rcases y with _ | ⟨x, xs⟩
  · rfl
  have hy : (x :: xs : List ℚ) ≠ [] := List.cons_ne_nil x xs
  by_cases hdeg : |qmax (x :: xs) - qmin (x :: xs)| < 1 / 1000000000000
  · by_cases h0 : qmax (x :: xs) ≤ 0
    · rw [toUnitCore_of_deg_nonpos hy hdeg h0, List.length_cons]
      have e1 : qmin (List.replicate (xs.length + 1) (0 : ℚ)) = 0 := qmin_replicate _ _
      have e2 : qmax (List.replicate (xs.length + 1) (0 : ℚ)) = 0 := qmax_replicate _ _
      rw [toUnitCore_of_deg_nonpos (by simp) (by rw [e1, e2]; norm_num) (by rw [e2])]
      simp
    · rw [toUnitCore_of_deg_pos hy hdeg h0, List.length_cons]
      have e1 : qmin (List.replicate (xs.length + 1) (1 : ℚ)) = 1 := qmin_replicate _ _
      have e2 : qmax (List.replicate (xs.length + 1) (1 : ℚ)) = 1 := qmax_replicate _ _
      rw [toUnitCore_of_deg_pos (by simp) (by rw [e1, e2]; norm_num)
        (by rw [e2]; norm_num)]
      simp
  · have hmM : qmin (x :: xs) ≤ qmax (x :: xs) := qmin_le_qmax hy
    have habs : |qmax (x :: xs) - qmin (x :: xs)| = qmax (x :: xs) - qmin (x :: xs) :=
      abs_of_nonneg (sub_nonneg.mpr hmM)
    have hpos : 0 < qmax (x :: xs) - qmin (x :: xs) := by
      rw [habs] at hdeg
      have := not_lt.mp hdeg
      linarith
    have hf : ∀ a b : ℚ, a ≤ b →
        clamp01 ((a - qmin (x :: xs)) / (qmax (x :: xs) - qmin (x :: xs))) ≤
        clamp01 ((b - qmin (x :: xs)) / (qmax (x :: xs) - qmin (x :: xs))) := by
      intro a b hab
      apply max_le_max le_rfl
      apply min_le_min le_rfl
      exact div_le_div_of_nonneg_right (sub_le_sub_right hab _) hpos.le
    rw [toUnitCore_of_nondeg hy hdeg]
    have e1 : qmin ((x :: xs).map
        (fun v => clamp01 ((v - qmin (x :: xs)) / (qmax (x :: xs) - qmin (x :: xs))))) = 0 := by
      rw [qmin_cons_map _ hf]
      rw [sub_self, zero_div]
      simp [clamp01]
    have e2 : qmax ((x :: xs).map
        (fun v => clamp01 ((v - qmin (x :: xs)) / (qmax (x :: xs) - qmin (x :: xs))))) = 1 := by
      rw [qmax_cons_map _ hf]
      rw [div_self (ne_of_gt hpos)]
      simp [clamp01]
    rw [toUnitCore_of_nondeg (by simp) (by rw [e1, e2]; norm_num)]
    rw [e1, e2]
    apply map_eq_self_of_mem
    intro v hv
    obtain ⟨u, _, rfl⟩ := List.mem_map.mp hv
    rw [sub_zero, sub_zero, div_one]
    exact clamp01_idem _

/-! Helper lemmas about the quantizer and decimation. -/

theorem rintEven_nonneg {q : ℚ} (h : 0 ≤ q) : 0 ≤ rintEven q := by
  have h0 : (0 : ℤ) ≤ ⌊q⌋ := Int.floor_nonneg.mpr h
  unfold rintEven
  split_ifs <;> omega

theorem rintEven_intCast (n : ℤ) : rintEven (n : ℚ) = n := by
  unfold rintEven
  rw [Int.floor_intCast, sub_self]
  norm_num

theorem quantizeVal_nonneg (v : ℚ) : 0 ≤ quantizeVal v :=
  le_min (by norm_num) (le_max_left 0 _)

theorem quantizeVal_le (v : ℚ) : quantizeVal v ≤ 15 := min_le_left 15 _

theorem quantizeVal_pos {v : ℚ} (hv : 1 / 1000000 < v) : 1 ≤ quantizeVal v := by
  unfold quantizeVal
  by_cases hz : rintEven (v * 15) = 0
  · rw [if_pos ⟨hv, hz⟩]
    norm_num
  · rw [if_neg (fun hc => hz hc.2)]
    have h1 : 0 ≤ rintEven (v * 15) := by
      apply rintEven_nonneg
      have : (0 : ℚ) < v := lt_trans (by norm_num) hv
      positivity
    exact le_min (by norm_num) (le_trans (by omega) (le_max_right 0 _))

theorem everyNth_length (st : ℕ) (l : List ℚ) :
    (everyNth st l).length = (l.length + st - 1) / st := by
  unfold everyNth
  rw [List.length_map, List.length_range]

theorem everyNth_getD (st : ℕ) (l : List ℚ) (i : ℕ)
    (h : i < (everyNth st l).length) :
    (everyNth st l).getD i 0 = l.getD (i * st) 0 := by
  unfold everyNth at h ⊢
  rw [List.length_map, List.length_range] at h
  rw [List.getD_eq_getElem?_getD, List.getElem?_map, List.getElem?_range h]
  rfl

/-! Helper lemmas about the streaming loop. -/

theorem streamLoop_nocrash (acts : List ℤ) (freq : ℤ) (cancel : Option ℕ)
    (sf : ℕ → ℕ → Bool) : ∀ (duty : List ℤ) (i : ℕ),
    (streamLoop acts freq cancel sf none duty i).2.2 = false := by
  intro duty
  induction duty with
  | nil => intro i; rfl
  | cons d rest ih =>
      intro i
      by_cases h : pollStop cancel i = true
      · simp [streamLoop, h]
      · simp [streamLoop, h, ih (i + 1)]

theorem streamLoop_length (acts : List ℤ) (freq : ℤ) (sf : ℕ → ℕ → Bool) :
    ∀ (duty : List ℤ) (i : ℕ),
    (streamLoop acts freq none sf none duty i).1.length = duty.length * acts.length := by
  intro duty
  induction duty with
  | nil => intro i; simp [streamLoop]
  | cons d rest ih =>
      intro i
      simp [streamLoop, pollStop, ih (i + 1)]
      ring

theorem pollStop_none (i : ℕ) : pollStop none i = false := rfl

theorem streamLoop_cancel_take (acts : List ℤ) (freq : ℤ) (sf : ℕ → ℕ → Bool)
    (ca : Option ℕ) : ∀ (duty : List ℤ) (i c : ℕ),
    streamLoop acts freq (some c) sf ca duty i
      = streamLoop acts freq none sf ca (duty.take (c - i)) i := by
  intro duty
  induction duty with
  | nil =>
      intro i c
      rw [List.take_nil]
      rfl
  | cons d rest ih =>
      intro i c
      by_cases h : c ≤ i
      · rw [Nat.sub_eq_zero_of_le h, List.take_zero]
        have hp : pollStop (some c) i = true := by
          simp [pollStop, h]
        simp [streamLoop, hp]
      · have h2 : c - i = (c - (i + 1)) + 1 := by omega
        have hp : pollStop (some c) i = false := by
          simp [pollStop]
          omega
        rw [h2, List.take_succ_cons]
        simp [streamLoop, hp, pollStop_none, ih (i + 1) c]

theorem streamLoop_sf_indep (acts : List ℤ) (freq : ℤ) (cancel : Option ℕ)
    (ca : Option ℕ) (sf sf' : ℕ → ℕ → Bool) : ∀ (duty : List ℤ) (i : ℕ),
    (streamLoop acts freq cancel sf ca duty i).1
      = (streamLoop acts freq cancel sf' ca duty i).1
    ∧ (streamLoop acts freq cancel sf ca duty i).2.2
      = (streamLoop acts freq cancel sf' ca duty i).2.2 := by
  intro duty
  induction duty with
  | nil => intro i; exact ⟨rfl, rfl⟩
  | cons d rest ih =>
      intro i
      by_cases h : pollStop cancel i = true
      · simp [streamLoop, h]
      · by_cases hc : ca = some i
        · simp [streamLoop, h, hc]
        · exact ⟨by simp [streamLoop, h, hc, (ih (i + 1)).1],
            by simp [streamLoop, h, hc, (ih (i + 1)).2]⟩

theorem streamLoop_en (acts : List ℤ) (freq : ℤ) (cancel : Option ℕ)
    (sf : ℕ → ℕ → Bool) (ca : Option ℕ) : ∀ (duty : List ℤ) (i : ℕ)
    (cmd : Command), cmd ∈ (streamLoop acts freq cancel sf ca duty i).1 →
    cmd.en = 1 := by
  intro duty
  induction duty with
  | nil => intro i cmd hc; exact absurd hc (List.not_mem_nil cmd)
  | cons d rest ih =>
      intro i cmd hc
      simp only [streamLoop] at hc
      by_cases h : pollStop cancel i = true
      · rw [if_pos h] at hc
        exact absurd hc (List.not_mem_nil cmd)
      · rw [if_neg h] at hc
        by_cases hca : ca = some i
        · rw [if_pos hca] at hc
          obtain ⟨a, _, rfl⟩ := List.mem_map.mp hc
          rfl
        · rw [if_neg hca] at hc
          rcases List.mem_append.mp hc with h1 | h1
          · obtain ⟨a, _, rfl⟩ := List.mem_map.mp h1
            rfl
          · exact ih (i + 1) cmd h1

theorem streamLoop_logs (acts : List ℤ) (freq : ℤ) (cancel : Option ℕ)
    (sf : ℕ → ℕ → Bool) (ca : Option ℕ) : ∀ (duty : List ℤ) (i : ℕ)
    (p : ℕ × ℕ), p ∈ (streamLoop acts freq cancel sf ca duty i).2.1 →
    sf p.1 p.2 = true ∧ p.2 < acts.length := by
  intro duty
  induction duty with
  | nil => intro i p hp; exact absurd hp (List.not_mem_nil p)
  | cons d rest ih =>
      intro i p hp
      have hbase : ∀ q : ℕ × ℕ,
          q ∈ (List.range acts.length).filterMap
            (fun j => if sf i j then some (i, j) else none) →
          sf q.1 q.2 = true ∧ q.2 < acts.length := by
        intro q hq
        obtain ⟨j, hj, hjq⟩ := List.mem_filterMap.mp hq
        by_cases hs : sf i j = true
        · rw [if_pos hs] at hjq
          obtain rfl := Option.some_injective _ hjq
          exact ⟨hs, List.mem_range.mp hj⟩
        · rw [if_neg hs] at hjq
          exact absurd hjq (Option.noConfusion)
      simp only [streamLoop] at hp
      by_cases h : pollStop cancel i = true
      · rw [if_pos h] at hp
        exact absurd hp (List.not_mem_nil p)
      · rw [if_neg h] at hp
        by_cases hca : ca = some i
        · rw [if_pos hca] at hp
          exact hbase p hp
        · rw [if_neg hca] at hp
          rcases List.mem_append.mp hp with h1 | h1
          · exact hbase p h1
          · exact ih (i + 1) p h1

theorem streamLoop_logs_eq (acts : List ℤ) (freq : ℤ) (cancel : Option ℕ)
    (sf : ℕ → ℕ → Bool) (ca : Option ℕ) : ∀ (duty : List ℤ) (i : ℕ),
    (streamLoop acts freq cancel sf ca duty i).2.1
      = (ranTicks cancel ca duty i).flatMap
          (fun t => (List.range acts.length).filterMap
            (fun j => if sf t j then some (t, j) else none)) := by
  intro duty
  induction duty with
  | nil => intro i; rfl
  | cons d rest ih =>
      intro i
      by_cases h : pollStop cancel i = true
      · simp [streamLoop, ranTicks, h]
      · by_cases hca : ca = some i
        · simp [streamLoop, ranTicks, h, hca]
        · simp [streamLoop, ranTicks, h, hca, ih (i + 1)]

theorem streamLoop_length_ranTicks (acts : List ℤ) (freq : ℤ)
    (cancel : Option ℕ) (sf : ℕ → ℕ → Bool) (ca : Option ℕ) :
    ∀ (duty : List ℤ) (i : ℕ),
    (streamLoop acts freq cancel sf ca duty i).1.length
      = (ranTicks cancel ca duty i).length * acts.length := by
  intro duty
  induction duty with
  | nil => intro i; simp [streamLoop, ranTicks]
  | cons d rest ih =>
      intro i
      by_cases h : pollStop cancel i = true
      · simp [streamLoop, ranTicks, h]
      · by_cases hca : ca = some i
        · simp [streamLoop, ranTicks, h, hca]
        · simp [streamLoop, ranTicks, h, hca, ih (i + 1)]
          ring

/-! Helper lemmas about the run model. -/

theorem toUnitNonneg_length (y : List PyFloat) :
    (toUnitNonneg y).length = y.length := by
  unfold toUnitNonneg
  rw [toUnitCore_length, List.length_map]

theorem runModel_eq (s : WfSource) (acts : List ℤ) (freq tickMs : ℤ)
    (cancel : Option ℕ) (env : DeviceEnv) (h : (extractY s).1 ≠ []) :
    runModel s acts freq tickMs cancel env =
      if (streamLoop acts freq cancel env.streamFail env.crashAt
          (dutySeqOf s tickMs) 0).2.2 then
        { commands := (streamLoop acts freq cancel env.streamFail env.crashAt
              (dutySeqOf s tickMs) 0).1 ++ shutdownExcept acts env.shutFail,
          logs := (streamLoop acts freq cancel env.streamFail env.crashAt
              (dutySeqOf s tickMs) 0).2.1,
          success := false, message := env.crashMsg }
      else
        { commands := (streamLoop acts freq cancel env.streamFail env.crashAt
              (dutySeqOf s tickMs) 0).1 ++ shutdownNormal acts,
          logs := (streamLoop acts freq cancel env.streamFail env.crashAt
              (dutySeqOf s tickMs) 0).2.1,
          success := true, message := "Waveform done" } := by
  unfold runModel
  rw [if_neg h]

theorem runModel_nocrash (s : WfSource) (acts : List ℤ) (freq tickMs : ℤ)
    (cancel : Option ℕ) (env : DeviceEnv) (h : (extractY s).1 ≠ [])
    (hca : env.crashAt = none) :
    runModel s acts freq tickMs cancel env =
      { commands := (streamLoop acts freq cancel env.streamFail none
            (dutySeqOf s tickMs) 0).1 ++ shutdownNormal acts,
        logs := (streamLoop acts freq cancel env.streamFail none
            (dutySeqOf s tickMs) 0).2.1,
        success := true, message := "Waveform done" } := by
  rw [runModel_eq s acts freq tickMs cancel env h, hca,
    streamLoop_nocrash acts freq cancel env.streamFail (dutySeqOf s tickMs) 0]
  simp

theorem runModel_logs (s : WfSource) (acts : List ℤ) (freq tickMs : ℤ)
    (cancel : Option ℕ) (env : DeviceEnv) (h : (extractY s).1 ≠ []) :
    (runModel s acts freq tickMs cancel env).logs
      = (streamLoop acts freq cancel env.streamFail env.crashAt
          (dutySeqOf s tickMs) 0).2.1 := by
  rw [runModel_eq s acts freq tickMs cancel env h]
  by_cases hb : (streamLoop acts freq cancel env.streamFail env.crashAt
      (dutySeqOf s tickMs) 0).2.2 = true
  · rw [if_pos hb]
  · rw [if_neg hb]

/-! The claims. -/

/-- C3: for every playback run whose signal extraction yields an empty sample
array, the run emits zero send_command calls (neither streaming nor shutdown
commands) and terminates with a failure notification whose message indicates
an empty waveform. -/
theorem c3_empty_extraction (s : WfSource) (acts : List ℤ) (freq tickMs : ℤ)
    (cancel : Option ℕ) (env : DeviceEnv) (h : (extractY s).1 = []) :
    runModel s acts freq tickMs cancel env =
      { commands := [], logs := [], success := false,
        message := "Empty waveform" } := by
  unfold runModel
  rw [if_pos h]

/-- Witness for C3: a source exposing only an empty points list yields zero
commands and the empty-waveform failure message. -/
theorem c3_empty_extraction_witness :
    (extractY srcEmpty).1 = []
    ∧ runModel srcEmpty [0, 1] 4 50 none envOk =
      { commands := [], logs := [], success := false,
        message := "Empty waveform" } :=
  ⟨by decide, c3_empty_extraction srcEmpty [0, 1] 4 50 none envOk (by decide)⟩

/-- C4: the normalizer returns an array of the same length with every value in
[0,1], computed by replacing NaN/±inf with 0, returning the empty array
unchanged, mapping a degenerate (constant within 1e-12) signal to all-zero
when its max is ≤ 0 and to all-one otherwise, and otherwise applying the
clamped affine rescale; in particular normalize([]) = [],
normalize([5,5,5]) = [1,1,1], normalize([-5,-5,-5]) = [0,0,0], and
normalize([NaN,1,-1]) treats NaN as 0 and rescales to [1/2,1,0]. -/
theorem c4_normalizer :
    (∀ y : List PyFloat, (toUnitNonneg y).length = y.length)
    ∧ (∀ (y : List PyFloat) (v : ℚ), v ∈ toUnitNonneg y → 0 ≤ v ∧ v ≤ 1)
    ∧ toUnitNonneg [] = []
    ∧ toUnitNonneg [.finite 5, .finite 5, .finite 5] = [1, 1, 1]
    ∧ toUnitNonneg [.finite (-5), .finite (-5), .finite (-5)] = [0, 0, 0]
    ∧ toUnitNonneg [.nan, .finite 1, .finite (-1)] = [1/2, 1, 0]
    ∧ toUnitNonneg [.posinf, .finite 3, .neginf] = [0, 1, 0] :=
  ⟨toUnitNonneg_length, fun _ _ hv => toUnitCore_mem hv,
    by decide, by decide, by decide, by decide, by decide⟩

/-- Witness for C4 discharging the membership hypothesis of the range clause
at a concrete normalized array. -/
theorem c4_normalizer_witness :
    (1 : ℚ) ∈ toUnitNonneg [.finite 5]
    ∧ (0 ≤ (1 : ℚ) ∧ (1 : ℚ) ≤ 1) :=
  ⟨by decide, c4_normalizer.2.1 [.finite 5] 1 (by decide)⟩

/-- C5: the quantizer computes step = max(1, round(sample_rate * tick_ms /
1000)) (so sample_rate 1000 and tick_ms 50 give step 50), keeps every step-th
sample, maps each kept value v to round(v*15) with the duty forced to 1 when
v > 1e-6 rounds to 0 and the result clamped to [0,15]; hence every duty is in
[0,15], input 0.0 gives 0, input 1.0 gives 15, and no amplitude above 1e-6
yields duty 0. -/
theorem c5_quantizer :
    (∀ (sr : ℚ) (tickMs : ℤ),
        stepOf sr tickMs = (max 1 (rintEven (sr * ((tickMs : ℚ) / 1000)))).toNat)
    ∧ stepOf 1000 50 = 50
    ∧ (∀ (y : List ℚ) (i : ℕ), i < (everyNth 50 y).length →
        (everyNth 50 y).getD i 0 = y.getD (i * 50) 0)
    ∧ (∀ v : ℚ, quantizeVal v =
        min 15 (max 0 (if 1 / 1000000 < v ∧ rintEven (v * 15) = 0 then 1
                       else rintEven (v * 15))))
    ∧ (∀ v : ℚ, 0 ≤ quantizeVal v ∧ quantizeVal v ≤ 15)
    ∧ quantizeVal 0 = 0
    ∧ quantizeVal 1 = 15
    ∧ (∀ v : ℚ, 1 / 1000000 < v → 1 ≤ quantizeVal v) :=
  ⟨fun _ _ => rfl, by decide, everyNth_getD 50, fun _ => rfl,
    fun v => ⟨quantizeVal_nonneg v, quantizeVal_le v⟩, by decide, by decide,
    fun _ hv => quantizeVal_pos hv⟩

/-- Witness for C5 discharging the positivity hypothesis of the floor-fix
clause at a concrete amplitude. -/
theorem c5_quantizer_witness :
    ((1 : ℚ) / 1000000 < 1 / 2) ∧ 1 ≤ quantizeVal (1 / 2) :=
  ⟨by decide, c5_quantizer.2.2.2.2.2.2.2 (1 / 2) (by decide)⟩

/-- C10: the normalizer is idempotent: re-normalizing a normalized array
returns it unchanged (non-degenerate outputs attain exactly 0 and 1 so the
second affine rescale is the identity; degenerate all-zero and all-one
outputs map to themselves; the empty array maps to itself). -/
theorem c10_normalizer_idem (y : List PyFloat) :
    toUnitNonneg ((toUnitNonneg y).map PyFloat.finite) = toUnitNonneg y := by
  unfold toUnitNonneg
  rw [nanToNum_map_finite]
  exact toUnitCore_idem _

/-- C6: a 1-second, 1000 Hz signal played to 2 target actuators with
tick_ms = 50 issues exactly 20 ticks of streaming commands, one send_command
per actuator per tick (40 commands), followed by exactly one shutdown command
with duty 0 per actuator (2 commands) — 42 send_command calls in total — and
the run terminates reporting success. -/
theorem c6_end_to_end (s : WfSource) (acts : List ℤ) (freq : ℤ)
    (env : DeviceEnv) (hlen : (extractY s).1.length = 1000)
    (hsr : (extractY s).2 = 1000) (hacts : acts.length = 2)
    (hca : env.crashAt = none) :
    (dutySeqOf s 50).length = 20
    ∧ (runModel s acts freq 50 none env).commands
        = (streamLoop acts freq none env.streamFail none (dutySeqOf s 50) 0).1
          ++ shutdownNormal acts
    ∧ (streamLoop acts freq none env.streamFail none (dutySeqOf s 50) 0).1.length = 40
    ∧ shutdownNormal acts = acts.map (fun a => Command.mk a 0 0 0)
    ∧ (shutdownNormal acts).length = 2
    ∧ (runModel s acts freq 50 none env).commands.length = 42
    ∧ (runModel s acts freq 50 none env).success = true
    ∧ (runModel s acts freq 50 none env).message = "Waveform done" := by
  have hne : (extractY s).1 ≠ [] := by
    intro hc
    rw [hc] at hlen
    simp at hlen
  have hstep : stepOf (extractY s).2 50 = 50 := by
    rw [hsr]
    decide
  have hnorm : (toUnitNonneg ((extractY s).1.map PyFloat.finite)).length = 1000 := by
    rw [toUnitNonneg_length, List.length_map, hlen]
  have hduty : (dutySeqOf s 50).length = 20 := by
    unfold dutySeqOf
    rw [List.length_map, hstep, everyNth_length, hnorm]
  have hlen40 :
      (streamLoop acts freq none env.streamFail none (dutySeqOf s 50) 0).1.length = 40 := by
    rw [streamLoop_length, hduty, hacts]
  have hshut : (shutdownNormal acts).length = 2 := by
    unfold shutdownNormal
    rw [List.length_map, hacts]
  have hrun := runModel_nocrash s acts freq 50 none env hne hca
  refine ⟨hduty, by rw [hrun], hlen40, rfl, hshut, ?_, by rw [hrun], by rw [hrun]⟩
  rw [hrun]
  simp only [List.length_append, hlen40, hshut]

set_option maxRecDepth 8000 in
/-- Witness for C6 at a concrete 1000-sample source, two actuators and a
failure-free environment. -/
theorem c6_end_to_end_witness :
    (dutySeqOf srcBig 50).length = 20
    ∧ (runModel srcBig [0, 1] 4 50 none envOk).commands
        = (streamLoop [0, 1] 4 none envOk.streamFail none (dutySeqOf srcBig 50) 0).1
          ++ shutdownNormal [0, 1]
    ∧ (streamLoop [0, 1] 4 none envOk.streamFail none (dutySeqOf srcBig 50) 0).1.length = 40
    ∧ shutdownNormal [0, 1] = [0, 1].map (fun a => Command.mk a 0 0 0)
    ∧ (shutdownNormal [0, 1]).length = 2
    ∧ (runModel srcBig [0, 1] 4 50 none envOk).commands.length = 42
    ∧ (runModel srcBig [0, 1] 4 50 none envOk).success = true
    ∧ (runModel srcBig [0, 1] 4 50 none envOk).message = "Waveform done" :=
  c6_end_to_end srcBig [0, 1] 4 envOk (by decide) (by decide) (by decide) rfl

/-- C7: a failure of a single send_command call during streaming is reported
via the log notification and never aborts the run: for every run tick `t`
(the ticks whose loop body ran) and every actuator position `j`, a failing
send_command at (t, j) appears on the log — the log is exactly the failing
(tick, position) pairs of the run ticks — while the attempted command trace,
the success flag and the message are all independent of which streaming
commands fail (one tick's worth of commands per run tick, so the loop
continues with the remaining actuators and ticks), every logged pair records
an actual failure at a valid actuator position, and with no unexpected
exception the run reports success no matter which streaming commands
failed. -/
theorem c7_command_failures (s : WfSource) (acts : List ℤ) (freq tickMs : ℤ)
    (cancel : Option ℕ) (e e' : DeviceEnv) (hsh : e.shutFail = e'.shutFail)
    (hca2 : e.crashAt = e'.crashAt) (hmsg : e.crashMsg = e'.crashMsg)
    (h : (extractY s).1 ≠ []) :
    (runModel s acts freq tickMs cancel e).commands
      = (runModel s acts freq tickMs cancel e').commands
    ∧ (runModel s acts freq tickMs cancel e).success
      = (runModel s acts freq tickMs cancel e').success
    ∧ (runModel s acts freq tickMs cancel e).message
      = (runModel s acts freq tickMs cancel e').message
    ∧ (∀ p : ℕ × ℕ, p ∈ (runModel s acts freq tickMs cancel e).logs →
        e.streamFail p.1 p.2 = true ∧ p.2 < acts.length)
    ∧ (∀ t j : ℕ, t ∈ ranTicks cancel e.crashAt (dutySeqOf s tickMs) 0 →
        j < acts.length → e.streamFail t j = true →
        (t, j) ∈ (runModel s acts freq tickMs cancel e).logs)
    ∧ (runModel s acts freq tickMs cancel e).logs
        = (ranTicks cancel e.crashAt (dutySeqOf s tickMs) 0).flatMap
            (fun t => (List.range acts.length).filterMap
              (fun j => if e.streamFail t j then some (t, j) else none))
    ∧ (streamLoop acts freq cancel e.streamFail e.crashAt
        (dutySeqOf s tickMs) 0).1.length
        = (ranTicks cancel e.crashAt (dutySeqOf s tickMs) 0).length * acts.length
    ∧ (e.crashAt = none → (runModel s acts freq tickMs cancel e).success = true) := by
  obtain ⟨hC, hX⟩ := streamLoop_sf_indep acts freq cancel e.crashAt
    e.streamFail e'.streamFail (dutySeqOf s tickMs) 0
  refine ⟨?_, ?_, ?_, ?_, ?_, ?_, ?_, ?_⟩
  · rw [runModel_eq s acts freq tickMs cancel e h,
      runModel_eq s acts freq tickMs cancel e' h, ← hca2, ← hsh, ← hmsg, ← hC, ← hX]
    by_cases hb : (streamLoop acts freq cancel e.streamFail e.crashAt
        (dutySeqOf s tickMs) 0).2.2 = true
    · rw [if_pos hb, if_pos hb]
    · rw [if_neg hb, if_neg hb]
  · rw [runModel_eq s acts freq tickMs cancel e h,
      runModel_eq s acts freq tickMs cancel e' h, ← hca2, ← hsh, ← hmsg, ← hC, ← hX]
    by_cases hb : (streamLoop acts freq cancel e.streamFail e.crashAt
        (dutySeqOf s tickMs) 0).2.2 = true
    · rw [if_pos hb, if_pos hb]
    · rw [if_neg hb, if_neg hb]
  · rw [runModel_eq s acts freq tickMs cancel e h,
      runModel_eq s acts freq tickMs cancel e' h, ← hca2, ← hsh, ← hmsg, ← hC, ← hX]
    by_cases hb : (streamLoop acts freq cancel e.streamFail e.crashAt
        (dutySeqOf s tickMs) 0).2.2 = true
    · rw [if_pos hb, if_pos hb]
    · rw [if_neg hb, if_neg hb]
  · intro p hp
    rw [runModel_eq s acts freq tickMs cancel e h] at hp
    have hp2 : p ∈ (streamLoop acts freq cancel e.streamFail e.crashAt
        (dutySeqOf s tickMs) 0).2.1 := by
      by_cases hb : (streamLoop acts freq cancel e.streamFail e.crashAt
          (dutySeqOf s tickMs) 0).2.2 = true
      · rw [if_pos hb] at hp
        exact hp
      · rw [if_neg hb] at hp
        exact hp
    exact streamLoop_logs acts freq cancel e.streamFail e.crashAt
      (dutySeqOf s tickMs) 0 p hp2
  · intro t j ht hj hsf
    rw [runModel_logs s acts freq tickMs cancel e h,
      streamLoop_logs_eq acts freq cancel e.streamFail e.crashAt
        (dutySeqOf s tickMs) 0]
    exact List.mem_flatMap.mpr ⟨t, ht, List.mem_filterMap.mpr
      ⟨j, List.mem_range.mpr hj, by rw [if_pos hsf]⟩⟩
  · rw [runModel_logs s acts freq tickMs cancel e h,
      streamLoop_logs_eq acts freq cancel e.streamFail e.crashAt
        (dutySeqOf s tickMs) 0]
  · exact streamLoop_length_ranTicks acts freq cancel e.streamFail e.crashAt
      (dutySeqOf s tickMs) 0
  · intro hnone
    rw [runModel_nocrash s acts freq tickMs cancel e h hnone]

/-- Witness for C7: every streaming command failing still yields a successful
run with the same command trace as the failure-free run, and the failure of
the single command of run tick 0 at actuator position 0 is reported on the
log. -/
theorem c7_command_failures_witness :
    (runModel srcOne [0] 4 50 none
        ⟨fun _ _ => true, fun _ => false, none, ""⟩).commands
      = (runModel srcOne [0] 4 50 none envOk).commands
    ∧ (runModel srcOne [0] 4 50 none
        ⟨fun _ _ => true, fun _ => false, none, ""⟩).success = true
    ∧ (0, 0) ∈ (runModel srcOne [0] 4 50 none
        ⟨fun _ _ => true, fun _ => false, none, ""⟩).logs :=
  ⟨(c7_command_failures srcOne [0] 4 50 none
      ⟨fun _ _ => true, fun _ => false, none, ""⟩ envOk rfl rfl rfl (by decide)).1,
    (c7_command_failures srcOne [0] 4 50 none
      ⟨fun _ _ => true, fun _ => false, none, ""⟩ envOk rfl rfl rfl
      (by decide)).2.2.2.2.2.2.2 rfl,
    (c7_command_failures srcOne [0] 4 50 none
      ⟨fun _ _ => true, fun _ => false, none, ""⟩ envOk rfl rfl rfl
      (by decide)).2.2.2.2.1 0 0 (by decide) (by decide) rfl⟩

/-- C9: the cancel signal is polled once per tick before that tick's commands
(the poll is the head of each streamLoop iteration), so with the poll first
observing the stop flag at tick c the streaming part of the trace is exactly
the first c ticks of the uncancelled loop: no streaming command of any tick
whose pre-tick poll observed the flag is issued, and at most c ticks' worth
of streaming commands (c * |actuators|) are emitted in total. -/
theorem c9_cancel_poll (s : WfSource) (acts : List ℤ) (freq tickMs : ℤ)
    (c : ℕ) (env : DeviceEnv) (h : (extractY s).1 ≠ [])
    (hca : env.crashAt = none) :
    (runModel s acts freq tickMs (some c) env).commands
      = (streamLoop acts freq none env.streamFail none
          ((dutySeqOf s tickMs).take c) 0).1 ++ shutdownNormal acts
    ∧ (streamLoop acts freq none env.streamFail none
        ((dutySeqOf s tickMs).take c) 0).1.length ≤ c * acts.length := by
  constructor
  · rw [runModel_nocrash s acts freq tickMs (some c) env h hca,
      streamLoop_cancel_take acts freq env.streamFail none (dutySeqOf s tickMs) 0 c,
      Nat.sub_zero]
  · rw [streamLoop_length]
    have hle : ((dutySeqOf s tickMs).take c).length ≤ c := by
      rw [List.length_take]
      exact min_le_left c _
    exact Nat.mul_le_mul_right acts.length hle

/-- Witness for C9: cancelling at tick 1 of a 2-tick run leaves exactly the
first tick's streaming command followed by the shutdown command. -/
theorem c9_cancel_poll_witness :
    (runModel srcTwo [0] 4 50 (some 1) envOk).commands
      = (streamLoop [0] 4 none envOk.streamFail none
          ((dutySeqOf srcTwo 50).take 1) 0).1 ++ shutdownNormal [0]
    ∧ (streamLoop [0] 4 none envOk.streamFail none
        ((dutySeqOf srcTwo 50).take 1) 0).1.length ≤ 1 * [(0 : ℤ)].length :=
  c9_cancel_poll srcTwo [0] 4 50 1 envOk (by decide) rfl

/-- C1 as stated is false: it demands that on every exit path — including an
unexpected exception — a failure of one actuator's off-command not prevent
the off-commands for the remaining actuators.  On the exception path (main.py
lines 125-127) the single try wraps the whole off-loop, so when the
off-command for actuator 0 raises, no off-command for actuator 1 is ever
attempted, even though 1 is in the target list and the run entered the
streaming loop. -/
theorem c1_counterexample :
    (extractY srcOne).1 ≠ []
    ∧ (1 : ℤ) ∈ ([0, 1] : List ℤ)
    ∧ (runModel srcOne [0, 1] 4 50 none envCrash).commands
        = [⟨0, 15, 4, 1⟩, ⟨1, 15, 4, 1⟩, ⟨0, 0, 0, 0⟩]
    ∧ Command.mk 1 0 0 0 ∉ (runModel srcOne [0, 1] 4 50 none envCrash).commands :=
  ⟨by decide, by decide, by decide, by decide⟩

/-- C1 (amended): for every run that enters the streaming loop, the command
trace is exactly the streaming commands (all with enabled = 1) followed by
exactly one shutdown block; on the normal and cancelled exits the shutdown
block is one off-command per actuator in the target list, independent of
which off-commands fail (per-actuator failure isolation), whereas on the
unexpected-exception exit it is the off-commands up to and including the
first failing one, a failure there preventing the remaining off-commands. -/
theorem c1_amended_shutdown (s : WfSource) (acts : List ℤ) (freq tickMs : ℤ)
    (cancel : Option ℕ) (env : DeviceEnv) (h : (extractY s).1 ≠ []) :
    (∀ cmd ∈ (streamLoop acts freq cancel env.streamFail env.crashAt
        (dutySeqOf s tickMs) 0).1, cmd.en = 1)
    ∧ (runModel s acts freq tickMs cancel env).commands
        = (streamLoop acts freq cancel env.streamFail env.crashAt
            (dutySeqOf s tickMs) 0).1
          ++ (if (streamLoop acts freq cancel env.streamFail env.crashAt
              (dutySeqOf s tickMs) 0).2.2
              then shutdownExcept acts env.shutFail
              else shutdownNormal acts)
    ∧ shutdownNormal acts = acts.map (fun a => Command.mk a 0 0 0) := by
  refine ⟨streamLoop_en acts freq cancel env.streamFail env.crashAt
    (dutySeqOf s tickMs) 0, ?_, rfl⟩
  rw [runModel_eq s acts freq tickMs cancel env h]
  by_cases hb : (streamLoop acts freq cancel env.streamFail env.crashAt
      (dutySeqOf s tickMs) 0).2.2 = true
  · rw [if_pos hb, if_pos hb]
  · rw [if_neg hb, if_neg hb]

/-- Witness for C1 (amended) on the crashing run used in the counterexample:
the trace decomposes into streaming commands followed by the truncated
exception-path shutdown block. -/
theorem c1_amended_shutdown_witness :
    (∀ cmd ∈ (streamLoop [0, 1] 4 none envCrash.streamFail envCrash.crashAt
        (dutySeqOf srcOne 50) 0).1, cmd.en = 1)
    ∧ (runModel srcOne [0, 1] 4 50 none envCrash).commands
        = (streamLoop [0, 1] 4 none envCrash.streamFail envCrash.crashAt
            (dutySeqOf srcOne 50) 0).1
          ++ (if (streamLoop [0, 1] 4 none envCrash.streamFail envCrash.crashAt
              (dutySeqOf srcOne 50) 0).2.2
              then shutdownExcept [0, 1] envCrash.shutFail
              else shutdownNormal [0, 1])
    ∧ shutdownNormal [0, 1] = [0, 1].map (fun a => Command.mk a 0 0 0) :=
  c1_amended_shutdown srcOne [0, 1] 4 50 none envCrash (by decide)

/-- C2 as stated is false: on a run cancelled before the duty sequence is
exhausted (stop flag observed at tick 1 of a 2-tick sequence), the code still
emits finished(True, "Waveform done") — the terminal notification reports
success with the same message as a completed run, not failure with a
cancellation message (main.py line 123 is reached after the break). -/
theorem c2_counterexample :
    (dutySeqOf srcTwo 50).length = 2
    ∧ (runModel srcTwo [0] 4 50 (some 1) envOk).success = true
    ∧ (runModel srcTwo [0] 4 50 (some 1) envOk).message = "Waveform done" :=
  ⟨by decide, by decide, by decide⟩

/-- C2 (amended): a run whose cancel signal is set before the duty sequence
is exhausted stops iterating (exactly c of the n ticks' commands are issued)
and performs the shutdown sequence, but its terminal completion notification
reports success (true) with the message "Waveform done", exactly like a run
that consumes the whole duty sequence without cancellation. -/
theorem c2_amended_cancel (s : WfSource) (acts : List ℤ) (freq tickMs : ℤ)
    (c : ℕ) (env : DeviceEnv) (h : (extractY s).1 ≠ [])
    (hca : env.crashAt = none) (hc : c < (dutySeqOf s tickMs).length) :
    (runModel s acts freq tickMs (some c) env).success = true
    ∧ (runModel s acts freq tickMs (some c) env).message = "Waveform done"
    ∧ (runModel s acts freq tickMs (some c) env).commands
        = (streamLoop acts freq none env.streamFail none
            ((dutySeqOf s tickMs).take c) 0).1 ++ shutdownNormal acts
    ∧ (streamLoop acts freq none env.streamFail none
        ((dutySeqOf s tickMs).take c) 0).1.length = c * acts.length
    ∧ (runModel s acts freq tickMs none env).success = true := by
  have hrun := runModel_nocrash s acts freq tickMs (some c) env h hca
  refine ⟨by rw [hrun], by rw [hrun], ?_, ?_, ?_⟩
  · rw [hrun, streamLoop_cancel_take acts freq env.streamFail none
      (dutySeqOf s tickMs) 0 c, Nat.sub_zero]
  · rw [streamLoop_length, List.length_take, min_eq_left hc.le]
  · rw [runModel_nocrash s acts freq tickMs none env h hca]

/-- Witness for C2 (amended) on the concrete cancelled run of the
counterexample. -/
theorem c2_amended_cancel_witness :
    (runModel srcTwo [0] 4 50 (some 1) envOk).success = true
    ∧ (runModel srcTwo [0] 4 50 (some 1) envOk).message = "Waveform done"
    ∧ (runModel srcTwo [0] 4 50 (some 1) envOk).commands
        = (streamLoop [0] 4 none envOk.streamFail none
            ((dutySeqOf srcTwo 50).take 1) 0).1 ++ shutdownNormal [0]
    ∧ (streamLoop [0] 4 none envOk.streamFail none
        ((dutySeqOf srcTwo 50).take 1) 0).1.length = 1 * [(0 : ℤ)].length
    ∧ (runModel srcTwo [0] 4 50 none envOk).success = true :=
  c2_amended_cancel srcTwo [0] 4 50 1 envOk (by decide) rfl (by decide)

theorem extractStage3_spec (s : WfSource) :
    extractStage3 s =
      (match stratPoints s with
       | some y => (y, s.sampleRate)
       | none => ([], s.sampleRate)) := by
  unfold extractStage3 stratPoints
  by_cases hp : s.points = []
  · simp [hp]
  · by_cases hcond : 1 < (s.points.map Prod.fst).length
        ∧ ¬ (allcloseTo (diffs (s.points.map Prod.fst))
            (diffs (s.points.map Prod.fst)).headI = true)
    · simp [hp, hcond]
      split <;> rfl
    · simp [hp, hcond]
      split <;> rfl

theorem extractStage2_spec (s : WfSource) :
    extractStage2 s =
      (match stratDirect s with
       | some y => (y, s.sampleRate)
       | none =>
         match stratPoints s with
         | some y => (y, s.sampleRate)
         | none => ([], s.sampleRate)) := by
  unfold extractStage2 stratDirect
  rcases ha : s.ampArr with _ | y
  · exact extractStage3_spec s
  · by_cases hy : y.length ≠ 0
    · simp [hy]
    · simp [hy, extractStage3_spec s]

/-- C8 as stated is false on the resampling condition: it demands linear
interpolation onto the uniform grid whenever consecutive time deltas are
unequal, but the code tests non-uniformity with np.allclose, so the source
srcNU — whose deltas 1 and 1 + 1e-9 are unequal yet within the tolerance — is
not resampled: extraction returns its 3 amplitudes directly rather than the
max(2, round(duration * sample_rate)) = 2000 interpolated grid points the
claim requires. -/
theorem c8_counterexample :
    (diffs (srcNU.points.map Prod.fst)).getD 0 0
        ≠ (diffs (srcNU.points.map Prod.fst)).getD 1 0
    ∧ extractY srcNU = ([0, 1, 1/2], 1000)
    ∧ (extractY srcNU).1.length
        ≠ (max 2 (rintEven (srcNU.duration * srcNU.sampleRate))).toNat :=
  ⟨by decide, by decide, by decide⟩

/-- C8 (amended): extraction tries the strategies in fixed priority order —
modified-waveform accessor, direct amplitude-array accessor, reconstruction
from raw points — returning the first non-empty result; in strategy 3, if
some time delta differs from the first delta by more than the np.allclose
tolerance (1e-8 absolute plus 1e-5 relative to the first delta), the
amplitudes are linearly interpolated onto a uniform grid of
max(2, round(duration * sample_rate)) points spanning [0, duration],
otherwise they are used directly; any exception inside a strategy is
swallowed and the next strategy tried (the accessor oracles), so extraction
is total, and when every strategy yields nothing it returns the empty array
with the source's declared sample rate. -/
theorem c8_amended_extraction (s : WfSource) :
    extractY s = extractSpecAmended s := by
  unfold extractY extractSpecAmended
  by_cases hwd : s.hasWd = false
  · simp [hwd]
  · rcases hgm : s.gm with _ | o
    · simp [hwd, hgm, stratModified, extractStage2_spec s]
    · rcases o with _ | y
      · simp [hwd, hgm, stratModified, extractStage2_spec s]
      · by_cases hy : y.length ≠ 0
        · simp [hwd, hgm, stratModified, hy]
        · simp [hwd, hgm, stratModified, hy, extractStage2_spec s]

end VibraForge
